import Mathlib

/-!
Verification development for the TVANAMM billing application.

The definitions below are shallow embeddings of the application's own
logic, translated line by line from the TypeScript source:

* `getFranchiseIdCore` embeds `databaseService.getFranchiseId` (identity
  resolution: profile lookup with an email-alias fallback and dashboard
  routing);
* `slopeOf` / `recommendItem` / `getRecommendationsCore` embed
  `predictiveService.getRecommendations` (per-item least-squares trend
  estimation over a lookback window);
* `buildReceiptText` embeds the receipt builder of the new-bill screen;
* `createGeneratedBillModel` embeds `databaseService.createGeneratedBill`
  as a transition on an explicit database state, with the success or
  failure of each of the two remote inserts supplied as a parameter;
* `getAllBillingDataModel` / `exportRowsOf` / `exportToExcelModel` embed
  the spreadsheet export pipeline.

JavaScript string primitives used by the source (`split`, `startsWith`,
`includes`, `toUpperCase`, `padStart`, `padEnd`, `repeat`, `toFixed`) are
modelled on `List Char` / `String`.  Numbers occurring in monetary and
quantity arithmetic are modelled as rationals (the JavaScript values are
IEEE doubles; all arithmetic relevant to the claims is exact on the
inputs considered).
-/

/-! ## JavaScript string primitives -/

/-- Fuel-indexed core of JavaScript `String.prototype.split` for a
non-empty separator `s0 :: stail`: scan left to right, cut at each
non-overlapping occurrence of the separator.  The fuel only serves to
make the recursion structural; `jsSplitL` instantiates it with the
length of the input, which is always sufficient. -/
def splitOnAuxF (s0 : Char) (stail : List Char) : Nat → List Char → List (List Char)
  | 0, l => [l]
  | _ + 1, [] => [[]]
  | fuel + 1, c :: rest =>
    if (s0 :: stail).isPrefixOf (c :: rest) then
      [] :: splitOnAuxF s0 stail fuel (rest.drop stail.length)
    else
      match splitOnAuxF s0 stail fuel rest with
      | [] => [[c]]
      | h :: t => (c :: h) :: t

/-- JavaScript `split` on `List Char`.  The empty-separator case never
occurs in the embedded code (the source only splits on `"store."`,
`"+"` and `"@"`). -/
def jsSplitL (sep l : List Char) : List (List Char) :=
  match sep with
  | [] => [l]
  | s0 :: stail => splitOnAuxF s0 stail l.length l

/-- JavaScript `String.prototype.split` (string wrapper). -/
def jsSplit (sep s : String) : List String :=
  (jsSplitL sep.data s.data).map (fun l => ⟨l⟩)

/-- JavaScript `array[i]` read followed by use as a string; the embedded
code only indexes positions that exist, so the default is irrelevant. -/
def jsIdx (l : List String) (i : Nat) : String :=
  l.getD i ""

/-- JavaScript `String.prototype.startsWith`. -/
def jsStartsWith (pre s : String) : Bool :=
  pre.data.isPrefixOf s.data

/-- JavaScript `String.prototype.includes` for a single-character needle. -/
def jsIncludesChar (c : Char) (s : String) : Bool :=
  s.data.contains c

/-- JavaScript `String.prototype.toUpperCase` (ASCII-adequate model). -/
def jsToUpper (s : String) : String :=
  ⟨s.data.map Char.toUpper⟩

/-- JavaScript `fullId.replace` with the anchored regular expression
`^FR-` and an empty replacement: strip one leading literal `FR-`
(case-sensitive), otherwise leave the string alone. -/
def stripFR (s : String) : String :=
  if "FR-".data.isPrefixOf s.data then ⟨s.data.drop 3⟩ else s

/-! ## Identity resolution (`databaseService.getFranchiseId`) -/

def centralDashboardRoute : String := "/(tabs)/central_dashboard"

def adminDashboardRoute : String := "/(tabs)/admin-dashboard-billing"

def franchiseNotFoundMsg : String := "Franchise ID not found in profile or email"

/-- Email fallback of `getFranchiseId`: `store.`-address parsing, the
parsed fragment being `email.split('store.')[1].split('@')[0]`. -/
def parseStoreEmail (email : String) : String :=
  jsToUpper (jsIdx (jsSplit "@" (jsIdx (jsSplit "store." email) 1)) 0)

/-- Email fallback of `getFranchiseId`: plus-address parsing, the parsed
fragment being `email.split('+')[1].split('@')[0]`. -/
def parsePlusEmail (email : String) : String :=
  jsToUpper (jsIdx (jsSplit "@" (jsIdx (jsSplit "+" email) 1)) 0)

/-- The email-alias fallback branch of `getFranchiseId`. -/
def resolveFromEmail (email : String) : Except String String :=
  if jsStartsWith "store." email then Except.ok (parseStoreEmail email)
  else if jsIncludesChar '+' email then Except.ok (parsePlusEmail email)
  else Except.error franchiseNotFoundMsg

/-- Resolution of `fullId` in `getFranchiseId`: a truthy (present and
non-empty) `profiles.franchise_id` wins, otherwise the email fallback
runs.  `profileFranchiseId = none` models both a missing profile row and
a row with a null `franchise_id`. -/
def resolveFullId (profileFranchiseId : Option String) (email : String) :
    Except String String :=
  match profileFranchiseId with
  | some fid => if fid = "" then resolveFromEmail email else Except.ok fid
  | none => resolveFromEmail email

/-- Routing step of `getFranchiseId`: strip an optional `FR-`, uppercase,
compare with the sentinel `CENTRAL`. -/
def routeFor (fullId : String) : String :=
  if jsToUpper (stripFR fullId) = "CENTRAL" then centralDashboardRoute
  else adminDashboardRoute

/-- Return value of `getFranchiseId` (the `user` field of the source
interface is dropped: it is pass-through authentication state). -/
structure FranchiseInfo where
  franchise_id : String
  dashboardRoute : String
deriving DecidableEq, Repr

/-- `databaseService.getFranchiseId`, with the profile-table read and the
authenticated email supplied as inputs. -/
def getFranchiseIdCore (profileFranchiseId : Option String) (email : String) :
    Except String FranchiseInfo :=
  (resolveFullId profileFranchiseId email).map (fun fullId => ⟨fullId, routeFor fullId⟩)

/-- The franchise identifier component of the resolution result. -/
def resolvedId (profileFranchiseId : Option String) (email : String) :
    Except String String :=
  (getFranchiseIdCore profileFranchiseId email).map FranchiseInfo.franchise_id

/-! ## Trend estimator (`predictiveService.getRecommendations`) -/

/-- Lexicographic comparison of code sequences, as JavaScript compares
strings. -/
def charListLe : List Char → List Char → Bool
  | [], _ => true
  | _ :: _, [] => false
  | a :: as, b :: bs =>
    if a.toNat < b.toNat then true
    else if b.toNat < a.toNat then false
    else charListLe as bs

/-- JavaScript `a <= b` on strings. -/
def strLe (a b : String) : Bool :=
  charListLe a.data b.data

/-- Insertion of one key into a sorted key list; `sortStrings` models the
default lexicographic `Array.prototype.sort()` on the day keys. -/
def insertSorted (d : String) : List String → List String
  | [] => [d]
  | x :: xs => if strLe d x then d :: x :: xs else x :: insertSorted d xs

/-- `Object.keys(dayMap).sort()`. -/
def sortStrings (l : List String) : List String :=
  l.foldr insertSorted []

/-- JavaScript `array.slice(-k)`: the last `k` elements (`slice(-0)` is
the whole array). -/
def jsSliceLast (k : Nat) (l : List String) : List String :=
  if k = 0 then l else l.drop (l.length - k)

/-- The lookback tail `days.slice(-lookbackDays)` of the sorted day keys
of one item's day-to-quantity record. -/
def tailDays (dayMap : List (String × ℚ)) (lookbackDays : Nat) : List String :=
  jsSliceLast lookbackDays (sortStrings (dayMap.map Prod.fst))

/-- `ys`: the quantities of the lookback tail, in day order. -/
def ysOf (dayMap : List (String × ℚ)) (lookbackDays : Nat) : List ℚ :=
  (tailDays dayMap lookbackDays).map (fun d => (dayMap.lookup d).getD 0)

/-- `xs = [0, 1, ..., n-1]` as rationals. -/
def xsOf (n : Nat) : List ℚ :=
  (List.range n).map (fun i : Nat => (i : ℚ))

/-- `xBar = xs.reduce((a,b)=>a+b, 0)/n`. -/
def xBarOf (n : Nat) : ℚ :=
  (xsOf n).sum / (n : ℚ)

/-- `yBar = ys.reduce((a,b)=>a+b, 0)/n`. -/
def yBarOf (ys : List ℚ) : ℚ :=
  ys.sum / (ys.length : ℚ)

/-- The accumulated `varx`: sum over the loop of `dx*dx`. -/
def varxOf (n : Nat) : ℚ :=
  (((xsOf n).map (fun x => (x - xBarOf n) * (x - xBarOf n))).sum)

/-- The accumulated `cov`: sum over the loop of `dx*dy`. -/
def covOf (ys : List ℚ) : ℚ :=
  (((xsOf ys.length).zip ys).map
    (fun p => (p.1 - xBarOf ys.length) * (p.2 - yBarOf ys))).sum

/-- `const slope = varx ? cov/varx : 0` (JavaScript truthiness: a zero
`varx` selects the fallback `0`). -/
def slopeOf (ys : List ℚ) : ℚ :=
  if varxOf ys.length = 0 then 0 else covOf ys / varxOf ys.length

def trendingUpMsg : String := "🥳 Trending up—consider stocking more."

def flatDecliningMsg : String := "⚠️ Flat or declining—reallocate resources."

structure Recommendation where
  item : String
  recommendation : String
deriving DecidableEq, Repr

/-- Per-item body of the `qtyByItemDay.forEach` loop: skip the item when
the lookback tail has fewer than 2 points, otherwise classify by the
sign of the fitted slope. -/
def recommendItem (item : String) (dayMap : List (String × ℚ))
    (lookbackDays : Nat) : Option Recommendation :=
  let tail := tailDays dayMap lookbackDays
  if tail.length < 2 then none
  else
    some ⟨item,
      if 0 < slopeOf (ysOf dayMap lookbackDays) then trendingUpMsg
      else flatDecliningMsg⟩

/-- Step 4 of `getRecommendations`: the emitted recommendation list, one
entry per item whose lookback tail has at least 2 data points. -/
def getRecommendationsCore (aggregated : List (String × List (String × ℚ)))
    (lookbackDays : Nat) : List Recommendation :=
  aggregated.filterMap (fun p => recommendItem p.1 p.2 lookbackDays)

/-- Written to the spec's words, for the refinement claim: the ordinary
least squares slope as `covariance(x,y) / variance(x)` with population
covariance and variance (shared divisor `n`). -/
def specOlsSlope (ys : List ℚ) : ℚ :=
  (covOf ys / (ys.length : ℚ)) / (varxOf ys.length / (ys.length : ℚ))

/-! ## Receipt builder (`buildReceiptText`, new-bill screen) -/

/-- `' '.repeat(n)`. -/
def spaces (n : Nat) : String :=
  ⟨List.replicate n ' '⟩

/-- The `center` helper of `buildReceiptText` (line width 32). -/
def jsCenter (t : String) : String :=
  if 32 ≤ t.length then t
  else
    let pad := (32 - t.length) / 2
    spaces pad ++ t ++ spaces (32 - t.length - pad)

/-- JavaScript `String.prototype.padStart` with spaces. -/
def jsPadStart (n : Nat) (s : String) : String :=
  spaces (n - s.length) ++ s

/-- JavaScript `String.prototype.padEnd` with spaces. -/
def jsPadEnd (n : Nat) (s : String) : String :=
  s ++ spaces (n - s.length)

/-- JavaScript `Number.prototype.toFixed(2)` for the non-negative exact
amounts the receipt prints: round `q` to an integer number of hundredths
(nearest, ties to the larger) and print with two decimals. -/
def ratToFixed2 (q : ℚ) : String :=
  let n : ℤ := ⌊q * 100 + 1 / 2⌋
  toString (n / 100) ++ "." ++ (if n % 100 < 10 then "0" else "") ++ toString (n % 100)

/-- A line item of the bill being printed. -/
structure BillItem where
  name : String
  qty : Nat
  price : ℚ
deriving DecidableEq, Repr

/-- The truncated display name: `i.name.length > 16 ? i.name.slice(0, 13)
+ '...' : i.name` (`slice` modelled on the character data). -/
def truncName (name : String) : String :=
  if 16 < name.length then (⟨name.data.take 13⟩ : String) ++ "..." else name

/-- One item row of the receipt. -/
def itemLine (i : BillItem) : String :=
  jsPadEnd 16 (truncName i.name) ++ jsPadStart 3 (toString i.qty) ++
    "  ₹" ++ jsPadStart 7 (ratToFixed2 (i.price * (i.qty : ℚ))) ++ "\n"

/-- `buildReceiptText`; `now` stands for `new Date().toLocaleString()`. -/
def buildReceiptText (now : String) (items : List BillItem) (totalAmt : ℚ)
    (method : String) : String :=
  jsCenter "T VANAMM" ++ "\n" ++
  jsCenter now ++ "\n\n" ++
  "ITEM          QTY  AMOUNT\n" ++
  "------------------------\n" ++
  String.join (items.map itemLine) ++
  "------------------------\n" ++
  "TOTAL:       ₹" ++ jsPadStart 7 (ratToFixed2 totalAmt) ++ "\n" ++
  "PAYMENT:     " ++ jsPadStart 7 method ++ "\n\n" ++
  jsCenter "Thank you visit again!" ++ "\n\n\n"

/-! ## Bill creation (`databaseService.createGeneratedBill`) -/

/-- Input line-item shape of `createGeneratedBill` (the source's
`Omit<GeneratedBillItemRow, 'id' | 'bill_id'>`, less the redundant
`franchise_id`, which the function overwrites with its own). -/
structure NewBillItem where
  menu_item_id : Nat
  item_name : String
  qty : Nat
  price : ℚ
deriving DecidableEq, Repr

/-- A persisted row of `bills_generated_billing`. -/
structure BillRow where
  id : Nat
  total : ℚ
  created_by : String
  franchise_id : String
  mode_payment : String
deriving DecidableEq, Repr

/-- A persisted row of `bill_items_generated_billing`. -/
structure BillItemRow where
  bill_id : Nat
  menu_item_id : Nat
  item_name : String
  qty : Nat
  price : ℚ
  franchise_id : String
deriving DecidableEq, Repr

/-- The two backend tables touched by bill creation. -/
structure BillDB where
  bills : List BillRow
  bill_items : List BillItemRow
deriving DecidableEq, Repr

/-- `createGeneratedBill` as a state transition.  The outcome of each of
the two sequential inserts is an input (`billInsertOk`,
`itemsInsertOk`): a failed insert persists nothing of its own call, a
successful bill insert is assigned the fresh id `newBillId`.  The
function throws (returns `Except.error`) exactly as the source does, and
the returned `BillDB` is whatever the backend then holds. -/
def createGeneratedBillModel (db : BillDB) (billInsertOk itemsInsertOk : Bool)
    (newBillId : Nat) (userId franchiseId : String) (billTotal : ℚ)
    (items : List NewBillItem) (modePayment : String) :
    BillDB × Except String Nat :=
  if !billInsertOk then (db, Except.error "Failed to create bill")
  else
    let db1 : BillDB :=
      { db with bills := db.bills ++ [⟨newBillId, billTotal, userId, franchiseId, modePayment⟩] }
    if !itemsInsertOk then (db1, Except.error "items insert failed")
    else
      let newItems := items.map (fun i =>
        BillItemRow.mk newBillId i.menu_item_id i.item_name i.qty i.price franchiseId)
      ({ db1 with bill_items := db1.bill_items ++ newItems }, Except.ok newBillId)

/-! ## Spreadsheet export (`getAllBillingData` + `exportToExcel`) -/

/-- One nested item of the raw `bills_generated_billing` query result. -/
structure RawQueryItem where
  id : Nat
  menu_item_id : Nat
  item_name : String
  qty : Nat
  price : ℚ
deriving DecidableEq, Repr

/-- One raw row of the `bills_generated_billing` query joined with its
nested `bill_items_generated_billing`. -/
structure RawQueryBill where
  id : Nat
  created_at : String
  total : ℚ
  mode_payment : Option String
  bill_items : List RawQueryItem
deriving DecidableEq, Repr

/-- The runtime shape of the objects `getAllBillingData` returns, widened
by the two optional fields (`franchise_id?`, `payment_method?`) that the
export site's type declares: reading an absent JavaScript object field
yields `undefined`, modelled as `none`. -/
structure ExportBillRow where
  id : Nat
  created_at : String
  total : ℚ
  mode_payment : Option String
  items : List BillItemRow
  franchise_id : Option String
  payment_method : Option String
deriving DecidableEq, Repr

/-- `databaseService.getAllBillingData`: map every raw bill row to a
`FullBillRow` object literal with fields `id`, `created_at`, `total`,
`mode_payment` and `items` (each item carrying the resolved
`franchise_id`).  The object literal sets neither a top-level
`franchise_id` nor a `payment_method` key, so both read back as
`undefined`. -/
def getAllBillingDataModel (franchiseId : String) (rows : List RawQueryBill) :
    List ExportBillRow :=
  rows.map (fun row =>
    { id := row.id
      created_at := row.created_at
      total := row.total
      mode_payment := row.mode_payment
      items := row.bill_items.map (fun it =>
        BillItemRow.mk row.id it.menu_item_id it.item_name it.qty it.price franchiseId)
      franchise_id := none
      payment_method := none })

/-- One row of the exported sheet (field names as in the source's object
literal). -/
structure DetailedRow where
  bill_id : Nat
  date : String
  franchise_id_col : String
  item_name : String
  quantity : Nat
  price : ℚ
  subtotal : ℚ
  total_bill_amount : ℚ
  payment_method : String
deriving DecidableEq, Repr

/-- The `detailedRows` computation of `exportToExcel`: one row per bill
line item; `bill.franchise_id || '—'` and `bill.payment_method ||
'Unknown'` are the JavaScript or-defaults on the optional fields.
`dateFmt` stands for `new Date(...).toLocaleString('en-IN')`. -/
def exportRowsOf (dateFmt : String → String) (all : List ExportBillRow) :
    List DetailedRow :=
  all.flatMap (fun bill => bill.items.map (fun item =>
    { bill_id := bill.id
      date := dateFmt bill.created_at
      franchise_id_col := bill.franchise_id.getD "—"
      item_name := item.item_name
      quantity := item.qty
      price := item.price
      subtotal := (item.qty : ℚ) * item.price
      total_bill_amount := bill.total
      payment_method := bill.payment_method.getD "Unknown" }))

/-- A workbook: named sheets of detailed rows. -/
structure Workbook where
  sheets : List (String × List DetailedRow)
deriving DecidableEq, Repr

/-- `exportToExcel` up to the device write: build the row list, put it on
a single appended sheet. -/
def exportToExcelModel (dateFmt : String → String) (all : List ExportBillRow) :
    Workbook :=
  ⟨[("Detailed Sales Report", exportRowsOf dateFmt all)]⟩

/-! ## Lemmas about the split model -/

theorem splitOnAuxF_ne_nil (s0 : Char) (st : List Char) :
    ∀ (fuel : Nat) (l : List Char), splitOnAuxF s0 st fuel l ≠ [] := by
  intro fuel
  induction fuel with
  | zero => intro l; simp [splitOnAuxF]
  | succ f ih =>
    intro l
    match l with
    | [] => simp [splitOnAuxF]
    | c :: rest =>
      simp only [splitOnAuxF]
      split
      · simp
      · split
        · simp
        · simp

theorem splitOnAuxF_fuel (s0 : Char) (st : List Char) :
    ∀ (f1 f2 : Nat) (l : List Char), l.length ≤ f1 → l.length ≤ f2 →
      splitOnAuxF s0 st f1 l = splitOnAuxF s0 st f2 l := by
  intro f1
  induction f1 with
  | zero =>
    intro f2 l h1 _
    have hl : l = [] := List.length_eq_zero.mp (Nat.le_zero.mp h1)
    subst hl
    cases f2 <;> simp [splitOnAuxF]
  | succ f ih =>
    intro f2 l h1 h2
    match l with
    | [] => cases f2 <;> simp [splitOnAuxF]
    | c :: rest =>
      obtain ⟨g, rfl⟩ : ∃ g, f2 = g + 1 := by
        cases f2 with
        | zero => simp at h2
        | succ g => exact ⟨g, rfl⟩
      have hr : rest.length ≤ f := by simp at h1; omega
      have hrg : rest.length ≤ g := by simp at h2; omega
      have hd : (rest.drop st.length).length ≤ f := by
        simp [List.length_drop]; omega
      have hdg : (rest.drop st.length).length ≤ g := by
        simp [List.length_drop]; omega
      simp only [splitOnAuxF]
      split
      · rw [ih g (rest.drop st.length) hd hdg]
      · rw [ih g rest hr hrg]

theorem splitOnAuxF_no_sep (s0 : Char) (st : List Char) :
    ∀ (fuel : Nat) (l : List Char), l.length ≤ fuel →
      ¬ ((s0 :: st) <:+: l) → splitOnAuxF s0 st fuel l = [l] := by
  intro fuel
  induction fuel with
  | zero => intro l _ _; simp [splitOnAuxF]
  | succ f ih =>
    intro l h1 hni
    match l with
    | [] => simp [splitOnAuxF]
    | c :: rest =>
      have hpre : ¬ ((s0 :: st).isPrefixOf (c :: rest) = true) := by
        intro h
        exact hni ( List.IsPrefix.isInfix ( List.isPrefixOf_iff_prefix.mp h))
      have hrest : splitOnAuxF s0 st f rest = [rest] := by
        refine ih rest (by simp at h1; omega) ?_
        intro h
        exact hni (List.infix_cons h)
      simp only [splitOnAuxF]
      rw [if_neg hpre, hrest]

theorem splitOnAuxF_headD (s0 : Char) :
    ∀ (fuel : Nat) (l : List Char), l.length ≤ fuel →
      (splitOnAuxF s0 [] fuel l).headD [] = l.takeWhile (fun c => c != s0) := by
  intro fuel
  induction fuel with
  | zero =>
    intro l h1
    have hl : l = [] := List.length_eq_zero.mp (Nat.le_zero.mp h1)
    subst hl
    simp [splitOnAuxF]
  | succ f ih =>
    intro l h1
    match l with
    | [] => simp [splitOnAuxF]
    | c :: rest =>
      have hr : rest.length ≤ f := by simp at h1; omega
      by_cases hc : s0 = c
      · subst hc
        have hpre : ([s0] : List Char).isPrefixOf (s0 :: rest) = true := by
          simp [List.isPrefixOf]
        simp only [splitOnAuxF]
        rw [if_pos hpre]
        simp [List.takeWhile_cons]
      · have hpre : ¬ (([s0] : List Char).isPrefixOf (c :: rest) = true) := by
          simp [List.isPrefixOf]
          intro h
          exact hc h
        simp only [splitOnAuxF]
        rw [if_neg hpre]
        rcases hsp : splitOnAuxF s0 [] f rest with _ | ⟨h, t⟩
        · exact absurd hsp (splitOnAuxF_ne_nil s0 [] f rest)
        · have := ih rest hr
          rw [hsp] at this
          simp only [List.headD] at this
          have hcne : (c != s0) = true := by
            simp [bne]
            intro h
            exact hc h.symm
          simp [List.takeWhile_cons, hcne, ← this]

theorem splitOnAuxF_cons_single (s0 : Char) :
    ∀ (a : List Char) (fuel : Nat) (b : List Char),
      (a ++ s0 :: b).length ≤ fuel → s0 ∉ a →
      splitOnAuxF s0 [] fuel (a ++ s0 :: b) = a :: splitOnAuxF s0 [] b.length b := by
  intro a
  induction a with
  | nil =>
    intro fuel b h1 _
    obtain ⟨f, rfl⟩ : ∃ f, fuel = f + 1 := by
      cases fuel with
      | zero => simp at h1
      | succ f => exact ⟨f, rfl⟩
    have hpre : ([s0] : List Char).isPrefixOf (s0 :: b) = true := by
      simp [List.isPrefixOf]
    simp only [List.nil_append, splitOnAuxF]
    rw [if_pos hpre]
    simp only [List.length_nil, List.drop_zero]
    rw [splitOnAuxF_fuel s0 [] f b.length b (by simp at h1; omega) (le_refl _)]
  | cons c a' ihA =>
    intro fuel b h1 hnotin
    obtain ⟨f, rfl⟩ : ∃ f, fuel = f + 1 := by
      cases fuel with
      | zero => simp at h1
      | succ f => exact ⟨f, rfl⟩
    have hc : s0 ≠ c := by
      intro h
      exact hnotin (h ▸ List.mem_cons_self c a')
    have hpre : ¬ (([s0] : List Char).isPrefixOf (c :: (a' ++ s0 :: b)) = true) := by
      simp [List.isPrefixOf]
      intro h
      exact hc h
    have hrec : splitOnAuxF s0 [] f (a' ++ s0 :: b) =
        a' :: splitOnAuxF s0 [] b.length b :=
      ihA f b (by simp at h1 ⊢; omega) (fun h => hnotin (List.mem_cons_of_mem c h))
    simp only [List.cons_append, splitOnAuxF, List.append_eq]
    rw [if_neg hpre, hrec]

theorem jsSplitL_ne_nil (sep l : List Char) : jsSplitL sep l ≠ [] := by
  match sep with
  | [] => simp [jsSplitL]
  | s0 :: st => exact splitOnAuxF_ne_nil s0 st l.length l

theorem jsSplitL_sep_start (s0 : Char) (st rest : List Char) :
    jsSplitL (s0 :: st) ((s0 :: st) ++ rest) =
      [] :: splitOnAuxF s0 st rest.length rest := by
  show splitOnAuxF s0 st ((s0 :: st) ++ rest).length ((s0 :: st) ++ rest) = _
  have hlen : ((s0 :: st) ++ rest).length = (st.length + rest.length) + 1 := by
    simp
    try omega
  have hpre : (s0 :: st).isPrefixOf (s0 :: st ++ rest) = true :=
    List.isPrefixOf_iff_prefix.mpr (List.prefix_append (s0 :: st) rest)
  rw [hlen]
  simp only [List.cons_append, splitOnAuxF, List.append_eq]
  rw [if_pos (by simp)]
  rw [List.drop_left st rest]
  rw [splitOnAuxF_fuel s0 st (st.length + rest.length) rest.length rest
    (by omega) (le_refl _)]

theorem jsSplitL_no_sep (sep l : List Char) (hne : sep ≠ [])
    (h : ¬ (sep <:+: l)) : jsSplitL sep l = [l] := by
  match sep with
  | [] => exact absurd rfl hne
  | s0 :: st => exact splitOnAuxF_no_sep s0 st l.length l (le_refl _) h

theorem jsSplitL_cons_single (s0 : Char) (a b : List Char) (h : s0 ∉ a) :
    jsSplitL [s0] (a ++ s0 :: b) = a :: splitOnAuxF s0 [] b.length b :=
  splitOnAuxF_cons_single s0 a (a ++ s0 :: b).length b (le_refl _) h

theorem takeWhile_append_all {p : Char → Bool} {l1 l2 : List Char}
    (h : ∀ x ∈ l1, p x = true) :
    (l1 ++ l2).takeWhile p = l1 ++ l2.takeWhile p := by
  induction l1 with
  | nil => simp
  | cons c t ih =>
    simp [List.takeWhile_cons, h c (List.mem_cons_self c t),
      ih (fun x hx => h x (List.mem_cons_of_mem c hx))]

theorem parseStoreEmail_eq (frid domain : String)
    (h1 : '@' ∉ frid.data)
    (h2 : ¬ ("store.".data <:+: (frid ++ "@" ++ domain).data)) :
    parseStoreEmail ("store." ++ frid ++ "@" ++ domain) = jsToUpper frid := by
  have hR : (frid ++ "@" ++ domain).data = frid.data ++ '@' :: domain.data := by
    simp [String.data_append]
  have hdata : ("store." ++ frid ++ "@" ++ domain).data
      = "store.".data ++ (frid ++ "@" ++ domain).data := by
    simp [String.data_append]
  have hsplit1 : jsSplit "store." ("store." ++ frid ++ "@" ++ domain)
      = ["", ⟨(frid ++ "@" ++ domain).data⟩] := by
    unfold jsSplit
    rw [hdata]
    rw [show ("store." : String).data = 's' :: "tore.".data from rfl]
    rw [jsSplitL_sep_start]
    rw [show splitOnAuxF 's' "tore.".data (frid ++ "@" ++ domain).data.length
          (frid ++ "@" ++ domain).data
        = jsSplitL ('s' :: "tore.".data) (frid ++ "@" ++ domain).data from rfl]
    rw [jsSplitL_no_sep _ _ (by simp)
      (by rw [show 's' :: "tore.".data = ("store." : String).data from rfl]; exact h2)]
    rfl
  have hsplit2 : jsSplit "@" (⟨(frid ++ "@" ++ domain).data⟩ : String)
      = (frid.data :: splitOnAuxF '@' [] domain.data.length domain.data).map
          (fun l => (⟨l⟩ : String)) := by
    show (jsSplitL ("@" : String).data (frid ++ "@" ++ domain).data).map
        (fun l => (⟨l⟩ : String)) = _
    rw [show ("@" : String).data = ['@'] from rfl, hR,
      jsSplitL_cons_single '@' frid.data domain.data h1]
  unfold parseStoreEmail
  rw [hsplit1]
  rw [show jsIdx ["", ⟨(frid ++ "@" ++ domain).data⟩] 1
      = (⟨(frid ++ "@" ++ domain).data⟩ : String) from rfl]
  rw [hsplit2]
  rfl

theorem parsePlusEmail_eq (localPart frid domain : String)
    (hl : '+' ∉ localPart.data) (hf1 : '+' ∉ frid.data) (hf2 : '@' ∉ frid.data) :
    parsePlusEmail (localPart ++ "+" ++ frid ++ "@" ++ domain) = jsToUpper frid := by
  have hdata : (localPart ++ "+" ++ frid ++ "@" ++ domain).data
      = localPart.data ++ '+' :: (frid.data ++ '@' :: domain.data) := by
    simp [String.data_append]
  have hsplit1 : jsSplit "+" (localPart ++ "+" ++ frid ++ "@" ++ domain)
      = (localPart.data :: splitOnAuxF '+' [] (frid.data ++ '@' :: domain.data).length
          (frid.data ++ '@' :: domain.data)).map (fun l => (⟨l⟩ : String)) := by
    show (jsSplitL ("+" : String).data (localPart ++ "+" ++ frid ++ "@" ++ domain).data).map
        (fun l => (⟨l⟩ : String)) = _
    rw [show ("+" : String).data = ['+'] from rfl, hdata,
      jsSplitL_cons_single '+' localPart.data (frid.data ++ '@' :: domain.data) hl]
  -- the chunk between the first '+' and the following '+', as a char list
  have hchunk : (splitOnAuxF '+' [] (frid.data ++ '@' :: domain.data).length
        (frid.data ++ '@' :: domain.data)).headD []
      = frid.data ++ '@' :: (domain.data.takeWhile (fun c => c != '+')) := by
    rw [show splitOnAuxF '+' [] (frid.data ++ '@' :: domain.data).length
          (frid.data ++ '@' :: domain.data)
        = jsSplitL ['+'] (frid.data ++ '@' :: domain.data) from rfl]
    rw [show (jsSplitL ['+'] (frid.data ++ '@' :: domain.data)).headD []
        = (frid.data ++ '@' :: domain.data).takeWhile (fun c => c != '+') from
        splitOnAuxF_headD '+' (frid.data ++ '@' :: domain.data).length _ (le_refl _)]
    rw [takeWhile_append_all (fun x hx => by
      simp [bne]
      intro hx2
      exact hf1 (hx2 ▸ hx))]
    simp [List.takeWhile_cons]
  rcases hsp : splitOnAuxF '+' [] (frid.data ++ '@' :: domain.data).length
      (frid.data ++ '@' :: domain.data) with _ | ⟨chunk, t⟩
  · exact absurd hsp (splitOnAuxF_ne_nil _ _ _ _)
  · have hchunkval : chunk = frid.data ++ '@' :: (domain.data.takeWhile (fun c => c != '+')) := by
      rw [hsp] at hchunk
      simpa using hchunk
    have hsplit2 : jsSplit "@" (⟨chunk⟩ : String)
        = (frid.data :: splitOnAuxF '@' []
            (domain.data.takeWhile (fun c => c != '+')).length
            (domain.data.takeWhile (fun c => c != '+'))).map (fun l => (⟨l⟩ : String)) := by
      show (jsSplitL ("@" : String).data chunk).map (fun l => (⟨l⟩ : String)) = _
      rw [show ("@" : String).data = ['@'] from rfl, hchunkval,
        jsSplitL_cons_single '@' frid.data _ hf2]
    unfold parsePlusEmail
    rw [hsplit1, hsp]
    rw [show jsIdx ((localPart.data :: chunk :: t).map (fun l => (⟨l⟩ : String))) 1
        = (⟨chunk⟩ : String) from rfl]
    rw [hsplit2]
    rfl

theorem resolveFromEmail_store (frid domain : String)
    (h1 : '@' ∉ frid.data)
    (h2 : ¬ ("store.".data <:+: (frid ++ "@" ++ domain).data)) :
    resolveFromEmail ("store." ++ frid ++ "@" ++ domain) =
      Except.ok (jsToUpper frid) := by
  have hsw : jsStartsWith "store." ("store." ++ frid ++ "@" ++ domain) = true := by
    unfold jsStartsWith
    rw [show ("store." ++ frid ++ "@" ++ domain).data
        = "store.".data ++ (frid ++ "@" ++ domain).data from by
          simp [String.data_append]]
    exact List.isPrefixOf_iff_prefix.mpr (List.prefix_append _ _)
  unfold resolveFromEmail
  rw [hsw]
  simp [parseStoreEmail_eq frid domain h1 h2]

theorem resolveFromEmail_plus (localPart frid domain : String)
    (hsw : jsStartsWith "store." (localPart ++ "+" ++ frid ++ "@" ++ domain) = false)
    (hl : '+' ∉ localPart.data) (hf1 : '+' ∉ frid.data) (hf2 : '@' ∉ frid.data) :
    resolveFromEmail (localPart ++ "+" ++ frid ++ "@" ++ domain) =
      Except.ok (jsToUpper frid) := by
  have hinc : jsIncludesChar '+' (localPart ++ "+" ++ frid ++ "@" ++ domain) = true := by
    unfold jsIncludesChar
    have hmem : '+' ∈ (localPart ++ "+" ++ frid ++ "@" ++ domain).data := by
      rw [show (localPart ++ "+" ++ frid ++ "@" ++ domain).data
          = localPart.data ++ '+' :: (frid.data ++ '@' :: domain.data) from by
            simp [String.data_append]]
      exact List.mem_append_right _ (List.mem_cons_self _ _)
    simp [hmem]
  unfold resolveFromEmail
  rw [hsw, hinc]
  simp [parsePlusEmail_eq localPart frid domain hl hf1 hf2]

theorem resolveFromEmail_error (email : String)
    (h1 : jsStartsWith "store." email = false)
    (h2 : jsIncludesChar '+' email = false) :
    resolveFromEmail email = Except.error franchiseNotFoundMsg := by
  unfold resolveFromEmail
  rw [h1, h2]
  simp

/-! ## Lemmas about the trend estimator -/

theorem sum_map_range (f : Nat → ℚ) (n : Nat) :
    ((List.range n).map f).sum = ∑ i ∈ Finset.range n, f i := by
  induction n with
  | zero => simp
  | succ m ih =>
    rw [List.range_succ]
    simp [ih, Finset.sum_range_succ]

theorem varxOf_pos {n : Nat} (hn : 2 ≤ n) : 0 < varxOf n := by
  unfold varxOf xsOf
  rw [List.map_map, sum_map_range]
  by_cases h0 : xBarOf n = 0
  · apply Finset.sum_pos'
    · intro i _
      exact mul_self_nonneg _
    · refine ⟨1, Finset.mem_range.mpr (by omega), ?_⟩
      simp [Function.comp, h0]
  · apply Finset.sum_pos'
    · intro i _
      exact mul_self_nonneg _
    · refine ⟨0, Finset.mem_range.mpr (by omega), ?_⟩
      simp only [Function.comp]
      refine mul_self_pos.mpr ?_
      simpa using h0

theorem varxOf_ne_zero {n : Nat} (hn : 2 ≤ n) : varxOf n ≠ 0 :=
  ne_of_gt (varxOf_pos hn)

theorem slopeOf_eq_div {ys : List ℚ} (h : 2 ≤ ys.length) :
    slopeOf ys = covOf ys / varxOf ys.length := by
  unfold slopeOf
  rw [if_neg (varxOf_ne_zero h)]

theorem slopeOf_eq_specSlope {ys : List ℚ} (h : 2 ≤ ys.length) :
    slopeOf ys = specOlsSlope ys := by
  rw [slopeOf_eq_div h]
  unfold specOlsSlope
  have hn : (ys.length : ℚ) ≠ 0 := Nat.cast_ne_zero.mpr (by omega)
  have hv : varxOf ys.length ≠ 0 := varxOf_ne_zero h
  field_simp

/-! ## Lemmas about the receipt builder -/

theorem spaces_length (n : Nat) : (spaces n).length = n := by
  simp [spaces, String.length]

theorem jsCenter_length {t : String} (h : t.length ≤ 32) :
    (jsCenter t).length = 32 := by
  unfold jsCenter
  by_cases h32 : 32 ≤ t.length
  · rw [if_pos h32]
    omega
  · rw [if_neg h32]
    simp only [String.length_append, spaces_length]
    omega

/-! ## Claim theorems -/

/-- C2: with no stored profile identifier, an email starting with
`store.` resolves to the fragment between the `store.` alias marker and
the `@` uppercased, and otherwise an email containing `+` resolves to
the fragment between the `+` and the `@` uppercased; in particular
`store.fr-12@x.com` resolves to `FR-12` and `jane+fr-9@x.com` to
`FR-9`. -/
theorem email_fallback_resolution :
    (∀ frid domain : String, '@' ∉ frid.data →
      ¬ ("store.".data <:+: (frid ++ "@" ++ domain).data) →
      resolvedId none ("store." ++ frid ++ "@" ++ domain) =
        Except.ok (jsToUpper frid)) ∧
    (∀ localPart frid domain : String,
      jsStartsWith "store." (localPart ++ "+" ++ frid ++ "@" ++ domain) = false →
      '+' ∉ localPart.data → '+' ∉ frid.data → '@' ∉ frid.data →
      resolvedId none (localPart ++ "+" ++ frid ++ "@" ++ domain) =
        Except.ok (jsToUpper frid)) ∧
    resolvedId none "store.fr-12@x.com" = Except.ok "FR-12" ∧
    resolvedId none "jane+fr-9@x.com" = Except.ok "FR-9" := by
  refine ⟨?_, ?_, rfl, rfl⟩
  · intro frid domain h1 h2
    unfold resolvedId getFranchiseIdCore resolveFullId
    rw [resolveFromEmail_store frid domain h1 h2]
    rfl
  · intro localPart frid domain hsw hl hf1 hf2
    unfold resolvedId getFranchiseIdCore resolveFullId
    rw [resolveFromEmail_plus localPart frid domain hsw hl hf1 hf2]
    rfl

theorem email_fallback_resolution_witness :
    resolvedId none ("store." ++ "fr-12" ++ "@" ++ "x.com") =
      Except.ok (jsToUpper "fr-12") ∧
    resolvedId none ("jane" ++ "+" ++ "fr-9" ++ "@" ++ "x.com") =
      Except.ok (jsToUpper "fr-9") :=
  ⟨email_fallback_resolution.1 "fr-12" "x.com" (by decide) (by decide),
   email_fallback_resolution.2.1 "jane" "fr-9" "x.com" (by decide) (by decide)
     (by decide) (by decide)⟩

/-- C3: resolution returns the central dashboard route exactly when
stripping an optional `FR-` prefix from the resolved identifier and
uppercasing yields the sentinel `CENTRAL`, and the standard admin
dashboard route for every other identifier. -/
theorem central_routing :
    ∀ (p : Option String) (email : String) (info : FranchiseInfo),
      getFranchiseIdCore p email = Except.ok info →
      ((info.dashboardRoute = centralDashboardRoute ↔
          jsToUpper (stripFR info.franchise_id) = "CENTRAL") ∧
       (jsToUpper (stripFR info.franchise_id) ≠ "CENTRAL" →
          info.dashboardRoute = adminDashboardRoute)) := by
  intro p email info h
  unfold getFranchiseIdCore at h
  rcases hres : resolveFullId p email with e | fid
  · rw [hres] at h
    simp [Except.map] at h
  · rw [hres] at h
    simp only [Except.map, Except.ok.injEq] at h
    subst h
    unfold routeFor
    by_cases hc : jsToUpper (stripFR fid) = "CENTRAL"
    · rw [if_pos hc]
      simp [hc]
    · rw [if_neg hc]
      have hne : adminDashboardRoute ≠ centralDashboardRoute := by decide
      exact ⟨⟨fun habs => absurd habs hne, fun habs => absurd habs hc⟩,
        fun _ => rfl⟩

theorem central_routing_witness :
    ((⟨"FR-CENTRAL", centralDashboardRoute⟩ : FranchiseInfo).dashboardRoute
        = centralDashboardRoute ↔
      jsToUpper (stripFR (⟨"FR-CENTRAL", centralDashboardRoute⟩ :
        FranchiseInfo).franchise_id) = "CENTRAL") ∧
    (jsToUpper (stripFR (⟨"FR-CENTRAL", centralDashboardRoute⟩ :
        FranchiseInfo).franchise_id) ≠ "CENTRAL" →
      (⟨"FR-CENTRAL", centralDashboardRoute⟩ : FranchiseInfo).dashboardRoute
        = adminDashboardRoute) :=
  central_routing (some "FR-CENTRAL") "" ⟨"FR-CENTRAL", centralDashboardRoute⟩ rfl

/-- C5: a stored non-empty profile franchise identifier is used directly,
for any email; in particular a stored `FR-7` resolves to franchise id
`FR-7` with the standard admin dashboard route. -/
theorem profile_hit_resolution :
    (∀ (fid email : String), fid ≠ "" →
      getFranchiseIdCore (some fid) email = Except.ok ⟨fid, routeFor fid⟩) ∧
    (∀ email : String, getFranchiseIdCore (some "FR-7") email =
      Except.ok ⟨"FR-7", adminDashboardRoute⟩) := by
  constructor
  · intro fid email hne
    simp only [getFranchiseIdCore, resolveFullId]
    rw [if_neg hne]
    rfl
  · intro email
    rfl

theorem profile_hit_resolution_witness :
    getFranchiseIdCore (some "FR-7") "someone@x.com" =
      Except.ok ⟨"FR-7", routeFor "FR-7"⟩ :=
  profile_hit_resolution.1 "FR-7" "someone@x.com" (by decide)

theorem resolveFromEmail_error_iff (email : String) :
    resolveFromEmail email = Except.error franchiseNotFoundMsg ↔
      (jsStartsWith "store." email = false ∧
        jsIncludesChar '+' email = false) := by
  unfold resolveFromEmail
  cases h1 : jsStartsWith "store." email with
  | true => simp [h1]
  | false =>
    cases h2 : jsIncludesChar '+' email with
    | true => simp [h1, h2]
    | false => simp [h1, h2]

theorem getFranchiseIdCore_error_iff (x : Except String String) :
    Except.map (fun fullId => (⟨fullId, routeFor fullId⟩ : FranchiseInfo)) x =
        Except.error franchiseNotFoundMsg ↔
      x = Except.error franchiseNotFoundMsg := by
  cases x <;> simp [Except.map]

/-- C6: resolution fails with the "Franchise ID not found" error exactly
when there is no stored (non-empty) profile identifier and the email
neither starts with `store.` nor contains `+`; the error is the returned
result (surfaced, not retried) and carries no franchise id; in
particular `plain@x.com` with no profile row fails. -/
theorem resolution_failure :
    (∀ (p : Option String) (email : String),
      getFranchiseIdCore p email = Except.error franchiseNotFoundMsg ↔
        ((p = none ∨ p = some "") ∧ jsStartsWith "store." email = false ∧
          jsIncludesChar '+' email = false)) ∧
    getFranchiseIdCore none "plain@x.com" =
      Except.error franchiseNotFoundMsg := by
  refine ⟨?_, rfl⟩
  intro p email
  match p with
  | none =>
    simp only [getFranchiseIdCore, resolveFullId]
    rw [getFranchiseIdCore_error_iff, resolveFromEmail_error_iff]
    simp
  | some fid =>
    by_cases hne : fid = ""
    · subst hne
      simp only [getFranchiseIdCore, resolveFullId]
      rw [if_pos trivial, getFranchiseIdCore_error_iff, resolveFromEmail_error_iff]
      simp
    · simp only [getFranchiseIdCore, resolveFullId]
      rw [if_neg hne]
      simp [Except.map, hne]

theorem resolution_failure_witness :
    getFranchiseIdCore (some "") "plain@x.com" =
      Except.error franchiseNotFoundMsg :=
  (resolution_failure.1 (some "") "plain@x.com").mpr
    ⟨Or.inr rfl, by decide, by decide⟩

/-- C10: a profile-sourced identifier is returned verbatim (never
normalized), and the `FR-` strip used for routing is case-sensitive, so
a stored `fr-central` normalizes to `FR-CENTRAL` (not `CENTRAL`) and is
routed to the standard admin dashboard, not the central one. -/
theorem profile_verbatim_lowercase_central :
    (∀ (fid email : String), fid ≠ "" →
      resolvedId (some fid) email = Except.ok fid) ∧
    stripFR "fr-central" = "fr-central" ∧
    jsToUpper (stripFR "fr-central") = "FR-CENTRAL" ∧
    (∀ email : String, getFranchiseIdCore (some "fr-central") email =
      Except.ok ⟨"fr-central", adminDashboardRoute⟩) := by
  refine ⟨?_, rfl, rfl, fun email => rfl⟩
  intro fid email hne
  simp only [resolvedId, getFranchiseIdCore, resolveFullId]
  rw [if_neg hne]
  rfl

theorem profile_verbatim_lowercase_central_witness :
    resolvedId (some "fr-central") "x@y.com" = Except.ok "fr-central" :=
  profile_verbatim_lowercase_central.1 "fr-central" "x@y.com" (by decide)

/-- C1: for a lookback tail with n ≥ 2 points the computed slope is the
population ordinary-least-squares slope (the shared divisor n cancels),
the trending-up message is emitted exactly when the slope is positive
and the flat/declining message exactly when it is ≤ 0; daily quantities
`[1,2,3,4,5]` give a positive slope and `[3,3,3,3]` give slope 0. -/
theorem trend_slope_ols_classification :
    (∀ ys : List ℚ, 2 ≤ ys.length → slopeOf ys = specOlsSlope ys) ∧
    (∀ (item : String) (dayMap : List (String × ℚ)) (k : Nat),
      2 ≤ (tailDays dayMap k).length →
      ((recommendItem item dayMap k = some ⟨item, trendingUpMsg⟩ ↔
          0 < slopeOf (ysOf dayMap k)) ∧
       (recommendItem item dayMap k = some ⟨item, flatDecliningMsg⟩ ↔
          slopeOf (ysOf dayMap k) ≤ 0))) ∧
    0 < slopeOf [1, 2, 3, 4, 5] ∧
    slopeOf [3, 3, 3, 3] = 0 := by
  have hmsg : trendingUpMsg ≠ flatDecliningMsg := by decide
  refine ⟨fun ys h => slopeOf_eq_specSlope h, ?_, ?_, ?_⟩
  · intro item dayMap k h
    have hrec : recommendItem item dayMap k =
        some ⟨item, if 0 < slopeOf (ysOf dayMap k) then trendingUpMsg
          else flatDecliningMsg⟩ := by
      show (if (tailDays dayMap k).length < 2 then (none : Option Recommendation)
        else some (⟨item, if 0 < slopeOf (ysOf dayMap k) then trendingUpMsg
          else flatDecliningMsg⟩ : Recommendation))
        = some (⟨item, if 0 < slopeOf (ysOf dayMap k) then trendingUpMsg
          else flatDecliningMsg⟩ : Recommendation)
      exact if_neg (by omega)
    rw [hrec]
    by_cases hs : 0 < slopeOf (ysOf dayMap k)
    · rw [if_pos hs]
      refine ⟨⟨fun _ => hs, fun _ => rfl⟩,
        ⟨fun habs => ?_, fun hle => absurd hs (not_lt.mpr hle)⟩⟩
      simp only [Option.some.injEq, Recommendation.mk.injEq, true_and] at habs
      exact absurd habs hmsg
    · rw [if_neg hs]
      refine ⟨⟨fun habs => ?_, fun hlt => absurd hlt hs⟩,
        ⟨fun _ => not_lt.mp hs, fun _ => rfl⟩⟩
      simp only [Option.some.injEq, Recommendation.mk.injEq, true_and] at habs
      exact absurd habs.symm hmsg
  · have h5 : List.range 5 = [0, 1, 2, 3, 4] := by decide
    simp [slopeOf, varxOf, covOf, xsOf, xBarOf, yBarOf, h5]
    norm_num
  · have h4 : List.range 4 = [0, 1, 2, 3] := by decide
    simp [slopeOf, varxOf, covOf, xsOf, xBarOf, yBarOf, h4]
    norm_num

theorem trend_slope_ols_classification_witness :
    slopeOf [1, 2, 3, 4, 5] = specOlsSlope [1, 2, 3, 4, 5] ∧
    ((recommendItem "Tea" [("d1", 1), ("d2", 2)] 5 =
        some ⟨"Tea", trendingUpMsg⟩ ↔
      0 < slopeOf (ysOf [("d1", 1), ("d2", 2)] 5)) ∧
     (recommendItem "Tea" [("d1", 1), ("d2", 2)] 5 =
        some ⟨"Tea", flatDecliningMsg⟩ ↔
      slopeOf (ysOf [("d1", 1), ("d2", 2)] 5) ≤ 0)) :=
  ⟨trend_slope_ols_classification.1 [1, 2, 3, 4, 5] (by decide),
   trend_slope_ols_classification.2.1 "Tea" [("d1", 1), ("d2", 2)] 5 (by decide)⟩

/-- C4: an item whose lookback tail has fewer than 2 data points is
skipped (no recommendation), and no division by zero occurs: for every
n ≥ 2 the x-variance over day indices 0..n-1 is strictly positive, so
under the n ≥ 2 guard the zero-variance fallback is unreachable and the
slope is the genuine quotient. -/
theorem trend_guard_no_div_zero :
    (∀ (item : String) (dayMap : List (String × ℚ)) (k : Nat),
      (tailDays dayMap k).length < 2 → recommendItem item dayMap k = none) ∧
    (∀ n : Nat, 2 ≤ n → 0 < varxOf n) ∧
    (∀ ys : List ℚ, 2 ≤ ys.length →
      slopeOf ys = covOf ys / varxOf ys.length) := by
  refine ⟨?_, fun n h => varxOf_pos h, fun ys h => slopeOf_eq_div h⟩
  intro item dayMap k h
  show (if (tailDays dayMap k).length < 2 then (none : Option Recommendation)
    else some (⟨item, if 0 < slopeOf (ysOf dayMap k) then trendingUpMsg
      else flatDecliningMsg⟩ : Recommendation)) = (none : Option Recommendation)
  exact if_pos h

theorem trend_guard_no_div_zero_witness :
    recommendItem "Tea" [("2024-01-01", 5)] 5 = none ∧
    0 < varxOf 2 ∧
    slopeOf [1, 2] = covOf [1, 2] / varxOf 2 :=
  ⟨trend_guard_no_div_zero.1 "Tea" [("2024-01-01", 5)] 5 (by decide),
   trend_guard_no_div_zero.2.1 2 (by decide),
   trend_guard_no_div_zero.2.2 [1, 2] (by decide)⟩

theorem jsPadEnd_length {n : Nat} {s : String} (h : s.length ≤ n) :
    (jsPadEnd n s).length = n := by
  unfold jsPadEnd
  rw [String.length_append, spaces_length]
  omega

/-- C7: the receipt uses the fixed 32-column layout: centered lines come
out exactly 32 characters wide; an item row is the (possibly truncated)
name padded to 16, the quantity padded to 3, and the amount printed with
two decimals behind a ₹ and padded to 7; a 20-character name is
truncated to its first 13 characters plus `...`; a total of 123.4 prints
as `₹ 123.40`. -/
theorem receipt_fixed_layout :
    (∀ t : String, t.length ≤ 32 → (jsCenter t).length = 32) ∧
    (∀ i : BillItem, itemLine i =
      jsPadEnd 16 (truncName i.name) ++ jsPadStart 3 (toString i.qty) ++
        "  ₹" ++ jsPadStart 7 (ratToFixed2 (i.price * (i.qty : ℚ))) ++ "\n") ∧
    (∀ name : String, name.length = 20 →
      truncName name = (⟨name.data.take 13⟩ : String) ++ "...") ∧
    (∀ name : String, name.length = 20 →
      (jsPadEnd 16 (truncName name)).length = 16) ∧
    (∀ s : String, s.length ≤ 16 → (jsPadEnd 16 s).length = 16) ∧
    (∀ (now method : String) (items : List BillItem) (q : ℚ),
      ∃ pre post : String, buildReceiptText now items q method =
        pre ++ ("TOTAL:       ₹" ++ jsPadStart 7 (ratToFixed2 q) ++ "\n") ++ post) ∧
    "₹" ++ jsPadStart 7 (ratToFixed2 (1234 / 10 : ℚ)) = "₹ 123.40" := by
  have htrunc : ∀ name : String, name.length = 20 →
      truncName name = (⟨name.data.take 13⟩ : String) ++ "..." := by
    intro name h
    unfold truncName
    rw [if_pos (by omega)]
  refine ⟨fun t h => jsCenter_length h, fun i => rfl, htrunc, ?_,
    fun s h => jsPadEnd_length h, ?_, ?_⟩
  · intro name h
    rw [htrunc name h]
    refine jsPadEnd_length ?_
    rw [String.length_append]
    have hlen : ((⟨name.data.take 13⟩ : String)).length = 13 := by
      have hd : name.data.length = 20 := h
      simp [String.length, List.length_take, hd]
    rw [hlen]
    decide
  · intro now method items q
    refine ⟨jsCenter "T VANAMM" ++ "\n" ++ jsCenter now ++ "\n\n" ++
      "ITEM          QTY  AMOUNT\n" ++ "------------------------\n" ++
      String.join (items.map itemLine) ++ "------------------------\n",
      "PAYMENT:     " ++ jsPadStart 7 method ++ "\n\n" ++
      jsCenter "Thank you visit again!" ++ "\n\n\n", ?_⟩
    unfold buildReceiptText
    simp only [String.append_assoc]
  · have hval : ((1234 : ℚ) / 10 * 100 + 1 / 2 : ℚ) = 24681 / 2 := by norm_num
    have hfl : (⌊(24681 / 2 : ℚ)⌋ : ℤ) = 12340 := by norm_num
    have h1 : ratToFixed2 (1234 / 10 : ℚ) = "123.40" := by
      unfold ratToFixed2
      rw [hval, hfl]
      decide
    rw [h1]
    decide

theorem receipt_fixed_layout_witness :
    (jsCenter "T VANAMM").length = 32 ∧
    truncName "ABCDEFGHIJKLMNOPQRST" =
      (⟨"ABCDEFGHIJKLMNOPQRST".data.take 13⟩ : String) ++ "..." ∧
    (jsPadEnd 16 (truncName "ABCDEFGHIJKLMNOPQRST")).length = 16 ∧
    (jsPadEnd 16 "Tea").length = 16 :=
  ⟨receipt_fixed_layout.1 "T VANAMM" (by decide),
   receipt_fixed_layout.2.2.1 "ABCDEFGHIJKLMNOPQRST" (by decide),
   receipt_fixed_layout.2.2.2.1 "ABCDEFGHIJKLMNOPQRST" (by decide),
   receipt_fixed_layout.2.2.2.2.1 "Tea" (by decide)⟩

/-- C8 counterexample: a run in which the bill insert succeeds and the
items insert fails leaves the bill row persisted with none of its item
rows — a partial write, so creation is not atomic as claimed. -/
theorem bill_creation_partial_write_cex :
    (createGeneratedBillModel ⟨[], []⟩ true false 1 "user-1" "FR-7" 100
        [⟨5, "Tea", 2, 50⟩] "Cash").1.bills.length = 1 ∧
    (createGeneratedBillModel ⟨[], []⟩ true false 1 "user-1" "FR-7" 100
        [⟨5, "Tea", 2, 50⟩] "Cash").1.bill_items.length = 0 ∧
    (createGeneratedBillModel ⟨[], []⟩ true false 1 "user-1" "FR-7" 100
        [⟨5, "Tea", 2, 50⟩] "Cash").2 = Except.error "items insert failed" :=
  ⟨rfl, rfl, rfl⟩

/-- C8 amended: bill creation is sequential, not atomic — the bill row is
inserted first and the item rows then reference its id; if the bill
insert fails nothing is persisted and the error is surfaced, if both
inserts succeed the bill row and all its item rows are persisted, and if
the items insert fails the bill row remains persisted without any of its
items (an unhandled partial write) and the error is surfaced. -/
theorem bill_creation_sequential :
    (∀ (db : BillDB) (itemsOk : Bool) (newId : Nat) (uid fr : String)
        (total : ℚ) (items : List NewBillItem) (mp : String),
      createGeneratedBillModel db false itemsOk newId uid fr total items mp =
        (db, Except.error "Failed to create bill")) ∧
    (∀ (db : BillDB) (newId : Nat) (uid fr : String) (total : ℚ)
        (items : List NewBillItem) (mp : String),
      createGeneratedBillModel db true true newId uid fr total items mp =
        ({ bills := db.bills ++ [⟨newId, total, uid, fr, mp⟩],
           bill_items := db.bill_items ++ items.map (fun i =>
             BillItemRow.mk newId i.menu_item_id i.item_name i.qty i.price fr) },
         Except.ok newId)) ∧
    (∀ (db : BillDB) (newId : Nat) (uid fr : String) (total : ℚ)
        (items : List NewBillItem) (mp : String),
      createGeneratedBillModel db true false newId uid fr total items mp =
        ({ bills := db.bills ++ [⟨newId, total, uid, fr, mp⟩],
           bill_items := db.bill_items },
         Except.error "items insert failed")) :=
  ⟨fun _ _ _ _ _ _ _ _ => rfl, fun _ _ _ _ _ _ _ => rfl,
   fun _ _ _ _ _ _ _ => rfl⟩

/-- C9 counterexample: the export is fed by `getAllBillingData`, whose
rows carry `mode_payment` and no top-level `franchise_id`, while the
export reads `bill.franchise_id` and `bill.payment_method`; for a bill
with franchise `FR-7` paid in cash, the exported row's franchise column
is the placeholder `—` (not `FR-7`) and its payment column is `Unknown`
(not `Cash`), so those columns are not populated from the bill. -/
theorem export_placeholder_columns_cex :
    (exportRowsOf (fun s => s) (getAllBillingDataModel "FR-7"
        [⟨1, "2024-01-01T10:00:00Z", 100, some "Cash",
          [⟨10, 5, "Tea", 2, 50⟩]⟩])).map DetailedRow.franchise_id_col
      = ["—"] ∧
    (exportRowsOf (fun s => s) (getAllBillingDataModel "FR-7"
        [⟨1, "2024-01-01T10:00:00Z", 100, some "Cash",
          [⟨10, 5, "Tea", 2, 50⟩]⟩])).map DetailedRow.payment_method
      = ["Unknown"] ∧
    ("—" : String) ≠ "FR-7" ∧ ("Unknown" : String) ≠ "Cash" :=
  ⟨rfl, rfl, by decide, by decide⟩

/-- C9 amended: the workbook has a single sheet with one row per bill
line item; bill id, formatted timestamp, item name, quantity, unit
price, line subtotal (quantity times unit price) and bill total are
populated from the bill and its line item, but the franchise-id column
is always the placeholder `—` and the payment-method column always
`Unknown`, because the billing query result sets neither of the fields
the export reads. -/
theorem export_one_row_per_line_item :
    ∀ (fmt : String → String) (fr : String) (rows : List RawQueryBill),
      (exportToExcelModel fmt (getAllBillingDataModel fr rows)).sheets.length = 1 ∧
      exportRowsOf fmt (getAllBillingDataModel fr rows) =
        rows.flatMap (fun row => row.bill_items.map (fun it =>
          DetailedRow.mk row.id (fmt row.created_at) "—" it.item_name it.qty
            it.price ((it.qty : ℚ) * it.price) row.total "Unknown")) := by
  intro fmt fr rows
  refine ⟨rfl, ?_⟩
  induction rows with
  | nil => rfl
  | cons r rs ih =>
    unfold exportRowsOf getAllBillingDataModel at ih ⊢
    simp only [List.map_cons, List.flatMap_cons] at ih ⊢
    rw [ih]
    simp [List.map_map, Function.comp]
